import Mathlib

/-!
# Verification of the openclaw endpoint dispatch subsystem

Shallow embedding of `src/gateway/endpoints.ts` (config resolver) and
`src/gateway/endpoints-http.ts` (sliding-window rate limiter, request
handler, callback deliverer), together with proofs of the spec claims.

Conventions of the embedding:
* JS `Map` objects are modelled as association lists (`List (String × β)`)
  with `mapGet` / `mapSet` mirroring `Map.get` / `Map.set`
  (`mapSet` overwrites in place, so later writes win, as in JS).
* JS millisecond timestamps (`Date.now()`) are modelled as `Int`, since the
  cutoff `now - windowMs` may be negative.
* Optional JS values are `Option`; the JS `??` operator is `Option.getD`;
  JS truthiness of an optional number/string is made explicit
  (`natTruthy`, `strTruthy`).
* `jsTrim` models JS `String.prototype.trim`.
-/

namespace OpenClaw

/-- Strip leading and trailing whitespace from a character list. -/
def trimChars (l : List Char) : List Char :=
  ((l.dropWhile Char.isWhitespace).reverse.dropWhile Char.isWhitespace).reverse

/-- JS `String.prototype.trim`, as a structurally recursive function on the
character list (Lean's own `String.trim` does not reduce in the kernel). -/
def jsTrim (s : String) : String :=
  ⟨trimChars s.data⟩

/-- Boolean prefix test on character lists. -/
def listIsPrefixOf : List Char → List Char → Bool
  | [], _ => true
  | _ :: _, [] => false
  | a :: as, b :: bs => a == b && listIsPrefixOf as bs

/-- JS `s.startsWith(p)`. -/
def jsStartsWith (p s : String) : Bool :=
  listIsPrefixOf p.data s.data

/-- Lookup in an association list, mirroring JS `Map.get`. -/
def mapGet {β : Type} (m : List (String × β)) (k : String) : Option β :=
  match m with
  | [] => none
  | (k', v) :: rest => if k' = k then some v else mapGet rest k

/-- Insert/overwrite in an association list, mirroring JS `Map.set`
(the entry for an existing key is replaced in place; a new key is
appended, preserving insertion order). -/
def mapSet {β : Type} (m : List (String × β)) (k : String) (v : β) :
    List (String × β) :=
  match m with
  | [] => [(k, v)]
  | (k', v') :: rest =>
      if k' = k then (k, v) :: rest else (k', v') :: mapSet rest k v

/-- Drop the maximal run of trailing `'/'` characters, mirroring the JS
`basePath.replace(/\/+$/, "")`. -/
def dropTrailWhileSlash : List Char → List Char
  | [] => []
  | c :: cs =>
      match dropTrailWhileSlash cs with
      | [] => if c = '/' then [] else [c]
      | rest => c :: rest

/-- `s.replace(/\/+$/, "")` on strings. -/
def stripTrailingSlashes (s : String) : String :=
  ⟨dropTrailWhileSlash s.data⟩

/-- JS `s.startsWith("/")`: the first character is `'/'`. -/
def jsStartsWithSlash (s : String) : Bool :=
  match s.data with
  | [] => false
  | c :: _ => c == '/'

/-- `s` ends with `'/'`: the last character is `'/'`. -/
def endsWithSlash (s : String) : Bool :=
  s.data.getLast? == some '/'

/-- JS `if (!basePath.startsWith("/")) basePath = "/" + basePath`. -/
def ensureLeadingSlash (s : String) : String :=
  if jsStartsWithSlash s then s else ⟨'/' :: s.data⟩

/-- JS truthiness of an optional number (`undefined` and `0` are falsy). -/
def natTruthy : Option Nat → Bool
  | none => false
  | some n => decide (n ≠ 0)

/-- JS truthiness of an optional string (`undefined` and `""` are falsy). -/
def strTruthy : Option String → Bool
  | none => false
  | some s => decide (s ≠ "")

-- ---------------------------------------------------------------------------
-- Raw configuration (src/config/types.endpoints.ts)
-- ---------------------------------------------------------------------------

/-- `EndpointTokenConfig` from `src/config/types.endpoints.ts`. -/
structure EndpointTokenConfig where
  value : String
  name : Option String
deriving DecidableEq

/-- Response mode of an endpoint (`"sync" | "async"`). -/
inductive EndpointMode where
  | sync
  | async
deriving DecidableEq

/-- `EndpointEntryConfig` from `src/config/types.endpoints.ts`. -/
structure EndpointEntryConfig where
  id : String
  instructions : Option String
  mode : Option EndpointMode
  tokens : Option (List EndpointTokenConfig)
  model : Option String
  thinking : Option String
  timeoutSeconds : Option Nat
deriving DecidableEq

/-- `EndpointRateLimitConfig` from `src/config/types.endpoints.ts`. -/
structure EndpointRateLimitConfig where
  maxRequests : Option Nat
  windowSeconds : Option Nat
deriving DecidableEq

/-- `EndpointsConfig` from `src/config/types.endpoints.ts`. -/
structure EndpointsConfig where
  enabled : Option Bool
  basePath : Option String
  rateLimit : Option EndpointRateLimitConfig
  entries : Option (List EndpointEntryConfig)
deriving DecidableEq

/-- The slice of `OpenClawConfig` used by the resolver: its optional
`endpoints` section. -/
structure OpenClawConfig where
  endpoints : Option EndpointsConfig
deriving DecidableEq

-- ---------------------------------------------------------------------------
-- Resolved configuration (src/gateway/endpoints.ts)
-- ---------------------------------------------------------------------------

/-- `EndpointEntryResolved`: the raw entry fields plus the resolved
`tokenMap` (token value → token name). -/
structure EndpointEntryResolved where
  id : String
  instructions : Option String
  mode : Option EndpointMode
  model : Option String
  thinking : Option String
  timeoutSeconds : Option Nat
  tokenMap : List (String × String)
deriving DecidableEq

/-- Resolved rate-limit parameters. -/
structure RateLimitResolved where
  maxRequests : Nat
  windowSeconds : Nat
deriving DecidableEq

/-- `EndpointsConfigResolved` from `src/gateway/endpoints.ts`. -/
structure EndpointsConfigResolved where
  basePath : String
  rateLimit : Option RateLimitResolved
  entries : List (String × EndpointEntryResolved)
deriving DecidableEq

/-- The token-map construction loop of `resolveEndpointsConfig`:
`tokenMap.set(v, t.name?.trim() || "unnamed")` for each token whose
trimmed value is non-empty. -/
def resolveTokensAux (tm : List (String × String)) :
    List EndpointTokenConfig → List (String × String)
  | [] => tm
  | t :: ts =>
      resolveTokensAux
        (if jsTrim t.value ≠ "" then
          mapSet tm (jsTrim t.value)
            (match t.name with
             | none => "unnamed"
             | some n => if jsTrim n = "" then "unnamed" else jsTrim n)
        else tm) ts

def resolveTokens (tokens : List EndpointTokenConfig) : List (String × String) :=
  resolveTokensAux [] tokens

/-- The entry-map construction loop of `resolveEndpointsConfig`: entries
with an empty trimmed id are skipped; the map key is the trimmed id, the
stored entry keeps the original fields (`{ ...entry, tokenMap }`). -/
def buildEntriesAux (m : List (String × EndpointEntryResolved)) :
    List EndpointEntryConfig → List (String × EndpointEntryResolved)
  | [] => m
  | e :: es =>
      buildEntriesAux
        (if jsTrim e.id = "" then m
         else
          mapSet m (jsTrim e.id)
            { id := e.id
              instructions := e.instructions
              mode := e.mode
              model := e.model
              thinking := e.thinking
              timeoutSeconds := e.timeoutSeconds
              tokenMap := resolveTokens (e.tokens.getD []) }) es

def buildEntries (es : List EndpointEntryConfig) :
    List (String × EndpointEntryResolved) :=
  buildEntriesAux [] es

/-- Base-path normalization of `resolveEndpointsConfig`:
`let basePath = (raw.basePath ?? "/endpoints").trim()`, force a leading
`/`, strip trailing slashes. -/
def normalizeBasePath (raw : Option String) : String :=
  stripTrailingSlashes (ensureLeadingSlash (jsTrim (raw.getD "/endpoints")))

/-- Rate-limit resolution of `resolveEndpointsConfig`:
`rl && (rl.maxRequests || rl.windowSeconds) ? { maxRequests: rl.maxRequests ?? 60, windowSeconds: rl.windowSeconds ?? 60 } : null`. -/
def resolveRateLimit (rl : Option EndpointRateLimitConfig) :
    Option RateLimitResolved :=
  match rl with
  | none => none
  | some r =>
      if natTruthy r.maxRequests || natTruthy r.windowSeconds then
        some { maxRequests := r.maxRequests.getD 60
               windowSeconds := r.windowSeconds.getD 60 }
      else none

/-- `resolveEndpointsConfig` from `src/gateway/endpoints.ts`. -/
def resolveEndpointsConfig (cfg : OpenClawConfig) :
    Option EndpointsConfigResolved :=
  match cfg.endpoints with
  | none => none
  | some raw =>
      if raw.enabled = some true then
        let entries := buildEntries (raw.entries.getD [])
        if entries = [] then none
        else
          some { basePath := normalizeBasePath raw.basePath
                 rateLimit := resolveRateLimit raw.rateLimit
                 entries := entries }
      else none

-- ---------------------------------------------------------------------------
-- Sliding-window rate limiter (src/gateway/endpoints-http.ts, isRateLimited)
-- ---------------------------------------------------------------------------

/-- The global `rateBuckets` map: endpoint id → list of timestamps (ms). -/
abbrev RateBuckets := List (String × List Int)

/-- `isRateLimited(endpointId, maxRequests, windowMs, now)` from
`src/gateway/endpoints-http.ts`, with the mutable bucket map made an
explicit argument and result.  Returns `true` when the request is
rejected.  The bucket is created lazily (`getD []`), pruned to the
timestamps strictly greater than `now - windowMs`, and the pruned list is
stored back even on rejection; on admission `now` is appended. -/
def isRateLimited (endpointId : String) (maxRequests : Nat) (windowMs : Int)
    (now : Int) (buckets : RateBuckets) : Bool × RateBuckets :=
  let ts := (mapGet buckets endpointId).getD []
  let pruned := ts.filter (fun t => now - windowMs < t)
  if maxRequests ≤ pruned.length then
    (true, mapSet buckets endpointId pruned)
  else
    (false, mapSet buckets endpointId (pruned ++ [now]))

/-- Run a sequence of admission checks for one endpoint id, threading the
bucket state (used to state the per-bucket invariants). -/
def runRate (endpointId : String) (maxRequests : Nat) (windowMs : Int) :
    RateBuckets → List Int → RateBuckets
  | buckets, [] => buckets
  | buckets, n :: ns =>
      runRate endpointId maxRequests windowMs
        (isRateLimited endpointId maxRequests windowMs n buckets).2 ns

/-- Run a sequence of admission checks and collect the verdicts
(`true` = rejected), mirroring successive calls of `isRateLimited` on the
shared bucket map. -/
def rateResults (endpointId : String) (maxRequests : Nat) (windowMs : Int) :
    RateBuckets → List Int → List Bool
  | _, [] => []
  | buckets, n :: ns =>
      let r := isRateLimited endpointId maxRequests windowMs n buckets
      r.1 :: rateResults endpointId maxRequests windowMs r.2 ns

/-- Timestamps currently retained for an endpoint id. -/
def bucketTs (buckets : RateBuckets) (endpointId : String) : List Int :=
  (mapGet buckets endpointId).getD []

-- ---------------------------------------------------------------------------
-- HTTP request handler (src/gateway/endpoints-http.ts,
-- createEndpointsRequestHandler)
-- ---------------------------------------------------------------------------

/-- A parsed JSON document, as produced by the external `readJsonBody`. -/
inductive Json where
  | null
  | bool (b : Bool)
  | num (n : Int)
  | str (s : String)
  | arr (elems : List Json)
  | obj (fields : List (String × Json))

/-- The inbound request, reduced to the fields the handler inspects:
`req.method`, `url.pathname`, and the token extracted by the external
`extractHookToken` (`none` when no token is presented). -/
structure HookRequest where
  method : String
  pathname : String
  token : Option String

/-- Result of the external `readJsonBody(req, 1 MiB)`: a parsed JSON value
or an error string (`"payload too large"` or a parse-error message). -/
inductive BodyReadResult where
  | ok (value : Json)
  | err (error : String)

/-- An HTTP response payload: JSON (via `sendJson`) or plain text. -/
inductive ResponsePayload where
  | json (v : Json)
  | text (s : String)

/-- An HTTP response as written by the handler. -/
structure HttpResponse where
  status : Nat
  headers : List (String × String)
  payload : ResponsePayload

/-- The `Content-Type` header set by `sendJson`. -/
def ctJson : String × String := ("Content-Type", "application/json; charset=utf-8")

/-- `sendJson(res, status, body)` with extra headers set beforehand. -/
def sendJsonWith (extraHeaders : List (String × String)) (status : Nat)
    (v : Json) : HttpResponse :=
  { status := status, headers := extraHeaders ++ [ctJson], payload := .json v }

/-- `sendJson(res, status, body)` from `src/gateway/endpoints-http.ts`. -/
def sendJson (status : Nat) (v : Json) : HttpResponse :=
  sendJsonWith [] status v

/-- The JSON error body `{ ok: false, error: msg }`. -/
def jsonErr (msg : String) : Json :=
  .obj [("ok", .bool false), ("error", .str msg)]

/-- The 405 response: `Allow: POST`, text body `Method Not Allowed`. -/
def resp405 : HttpResponse :=
  { status := 405
    headers := [("Allow", "POST"), ("Content-Type", "text/plain; charset=utf-8")]
    payload := .text "Method Not Allowed" }

/-- The path-match test of the handler:
`url.pathname === basePath || url.pathname.startsWith(basePath + "/")`. -/
def pathMatches (basePath pathname : String) : Bool :=
  pathname == basePath || jsStartsWith (basePath ++ "/") pathname

/-- `url.pathname.slice(basePath.length).replace(/^\/+/, "")`. -/
def subPathOf (basePath pathname : String) : String :=
  ⟨(pathname.data.drop basePath.data.length).dropWhile (fun c => c = '/')⟩

/-- The auth block of the handler: if `tokenMap` is non-empty a token must
be presented (`if (!token)`) and must map to a name (`if (!name)`);
returns the token name on success (`none` when unauthenticated). -/
def authCheck (tokenMap : List (String × String)) (token : Option String) :
    Except Unit (Option String) :=
  if tokenMap = [] then .ok none
  else
    match token with
    | none => .error ()
    | some t =>
        if t = "" then .error ()
        else
          match mapGet tokenMap t with
          | none => .error ()
          | some name => if name = "" then .error () else .ok (some name)

/-- The rate-limiting block of the handler: when a rate limit is
configured, run `isRateLimited` with `windowMs = windowSeconds * 1000`;
on rejection produce the 429 response with a `Retry-After` header. -/
def rateLimitStep (rl : Option RateLimitResolved) (entryId : String)
    (buckets : RateBuckets) (now : Int) :
    Option HttpResponse × RateBuckets :=
  match rl with
  | none => (none, buckets)
  | some r =>
      let res :=
        isRateLimited entryId r.maxRequests ((r.windowSeconds : Int) * 1000)
          now buckets
      if res.1 then
        (some (sendJsonWith [("Retry-After", toString r.windowSeconds)] 429
            (jsonErr "Rate limit exceeded")), res.2)
      else (none, res.2)

/-- Property lookup on a parsed JSON object. -/
def fieldLookup : List (String × Json) → String → Option Json
  | [], _ => none
  | (k, v) :: rest, key => if k = key then some v else fieldLookup rest key

/-- JS property access on an arbitrary value (only objects have
properties in this model; arrays have no string-named properties). -/
def jsGetField : Json → String → Option Json
  | .obj fields, key => fieldLookup fields key
  | _, _ => none

/-- `typeof body.value === "object" && body.value !== null ? body.value : {}`:
in JS both objects and arrays have `typeof "object"`; `null` and the
primitives are replaced by the empty object. -/
def jsPayload (v : Json) : Json :=
  match v with
  | .obj _ => v
  | .arr _ => v
  | _ => .obj []

/-- `typeof raw.message === "string" ? raw.message.trim() : ""`. -/
def messageOf (payload : Json) : String :=
  match jsGetField payload "message" with
  | some (.str s) => jsTrim s
  | _ => ""

/-- `typeof raw.callbackUrl === "string" ? raw.callbackUrl.trim() : undefined`. -/
def callbackUrlOf (payload : Json) : Option String :=
  match jsGetField payload "callbackUrl" with
  | some (.str s) => some (jsTrim s)
  | _ => none

/-- The value returned by the external `dispatch` callback. -/
structure DispatchReply where
  runId : String
  reply : Option String

/-- The JSON body of a callback POST (`{runId, status, reply?, error?}`). -/
structure CallbackBody where
  runId : String
  status : String
  reply : Option String
  error : Option String

/-- One invocation of `postCallback(url, body)`: a single HTTP POST
attempt with a JSON body and `Content-Type: application/json`. -/
structure CallbackAttempt where
  url : String
  body : CallbackBody

/-- The outcome of one call of the request handler: either the request is
declined (`return false`, nothing written), or it is handled with exactly
one HTTP response plus the list of callback POST attempts made by the
detached background task. -/
inductive HandleResult where
  | notHandled
  | handled (resp : HttpResponse) (callbacks : List CallbackAttempt)

/-- The detached background task of the async branch.  After `dispatch`
resolves, `if (callbackUrl)` a `postCallback` is attempted.  On dispatch
success the POST of `{runId, status: "ok", reply: result.reply ?? ""}`
is awaited inside the `try` and `postCallback` is a bare `await fetch`,
so when its delivery fails the rejection reaches the outer `catch`,
which then attempts a second POST `{runId, status: "error", error:
String(err)}` carrying the delivery error.  On dispatch failure a single
POST with `status: "error"` is attempted.  An error-POST's own delivery
failure is swallowed by an empty catch handler, so no further attempts
follow.  `okDelivery` is the settled outcome of awaiting the
success-path `postCallback` (`.error e` = the fetch rejected with
`String(err) = e`); it is consulted only when the dispatch succeeded and
a callback URL is present. -/
def asyncCallbacks (callbackUrl : Option String) (runId : String)
    (dispatchResult : Except String DispatchReply)
    (okDelivery : Except String Unit) : List CallbackAttempt :=
  match callbackUrl with
  | none => []
  | some u =>
      if u ≠ "" then
        match dispatchResult with
        | .ok r =>
            match okDelivery with
            | .ok _ =>
                [⟨u, { runId := runId, status := "ok",
                       reply := some (r.reply.getD ""), error := none }⟩]
            | .error derr =>
                [⟨u, { runId := runId, status := "ok",
                       reply := some (r.reply.getD ""), error := none }⟩,
                 ⟨u, { runId := runId, status := "error",
                       reply := none, error := some derr }⟩]
        | .error e =>
            [⟨u, { runId := runId, status := "error",
                   reply := none, error := some e }⟩]
      else []

/-- `createEndpointsRequestHandler` from `src/gateway/endpoints-http.ts`
(the current handler, with tokenMap auth and rate limiting), as a pure
function.  External effects are explicit parameters: the resolved config
snapshot (`getEndpointsConfig()`), the parsed body (`readJsonBody`), the
rate-bucket state and current time, the fresh run id
(`crypto.randomUUID()`), the settled outcome of the external `dispatch`
call (`.ok` = resolved, `.error e` = rejected with `String(err) = e`),
and the settled outcome `okDelivery` of awaiting the success-path
callback POST (consulted only in the async branch, see
`asyncCallbacks`).  The result pairs the handler outcome with the
updated rate-bucket state. -/
def handleEndpointsRequest (config : Option EndpointsConfigResolved)
    (req : HookRequest) (body : BodyReadResult) (buckets : RateBuckets)
    (now : Int) (freshRunId : String)
    (dispatchResult : Except String DispatchReply)
    (okDelivery : Except String Unit) :
    HandleResult × RateBuckets :=
  match config with
  | none => (.notHandled, buckets)
  | some config =>
      if pathMatches config.basePath req.pathname then
        if req.method ≠ "POST" then
          (.handled resp405 [], buckets)
        else
          let subPath := subPathOf config.basePath req.pathname
          if subPath = "" then
            (.handled (sendJson 404 (jsonErr "Endpoint id required in path")) [],
              buckets)
          else
            match mapGet config.entries subPath with
            | none =>
                (.handled (sendJson 404
                    (jsonErr ("Unknown endpoint: " ++ subPath))) [], buckets)
            | some entry =>
                match authCheck entry.tokenMap req.token with
                | .error _ =>
                    (.handled (sendJson 401 (jsonErr "Unauthorized")) [], buckets)
                | .ok _tokenName =>
                    match rateLimitStep config.rateLimit entry.id buckets now with
                    | (some resp, buckets') => (.handled resp [], buckets')
                    | (none, buckets') =>
                        match body with
                        | .err e =>
                            (.handled (sendJson
                                (if e = "payload too large" then 413 else 400)
                                (jsonErr e)) [], buckets')
                        | .ok v =>
                            let payload := jsPayload v
                            let message := messageOf payload
                            if message = "" then
                              (.handled (sendJson 400
                                  (jsonErr "message is required")) [], buckets')
                            else
                              let callbackUrl := callbackUrlOf payload
                              let mode := entry.mode.getD .sync
                              if mode = .async ∧ strTruthy callbackUrl = false then
                                (.handled (sendJson 400 (jsonErr
                                    ("Endpoint \"" ++ entry.id ++
                                      "\" is async — callbackUrl is required"))) [],
                                  buckets')
                              else if mode = .sync ∧ strTruthy callbackUrl = true then
                                (.handled (sendJson 400 (jsonErr
                                    ("Endpoint \"" ++ entry.id ++
                                      "\" is sync — callbackUrl is not supported"))) [],
                                  buckets')
                              else if mode = .async then
                                (.handled (sendJson 202
                                    (.obj [("ok", .bool true),
                                           ("runId", .str freshRunId)]))
                                  (asyncCallbacks callbackUrl freshRunId
                                    dispatchResult okDelivery), buckets')
                              else
                                match dispatchResult with
                                | .ok r =>
                                    (.handled (sendJson 200
                                        (.obj [("ok", .bool true),
                                               ("reply", .str (r.reply.getD ""))])) [],
                                      buckets')
                                | .error e =>
                                    (.handled (sendJson 500 (jsonErr e)) [], buckets')
      else (.notHandled, buckets)

-- ---------------------------------------------------------------------------
-- Helper lemmas
-- ---------------------------------------------------------------------------

theorem mapGet_mapSet_self {β : Type} (m : List (String × β)) (k : String)
    (v : β) : mapGet (mapSet m k v) k = some v := by
  induction m with
  | nil => simp [mapSet, mapGet]
  | cons p rest ih =>
      obtain ⟨k', v'⟩ := p
      by_cases h : k' = k
      · simp [mapSet, mapGet, h]
      · simp [mapSet, mapGet, h, ih]

theorem mem_mapSet {β : Type} {m : List (String × β)} {k : String} {v : β}
    {p : String × β} (h : p ∈ mapSet m k v) : p = (k, v) ∨ p ∈ m := by
  induction m with
  | nil => simpa [mapSet] using h
  | cons q rest ih =>
      obtain ⟨k', v'⟩ := q
      by_cases hk : k' = k
      · simp only [mapSet, if_pos hk] at h
        rcases List.mem_cons.mp h with h | h
        · exact Or.inl h
        · exact Or.inr (List.mem_cons_of_mem _ h)
      · simp only [mapSet, if_neg hk] at h
        rcases List.mem_cons.mp h with h | h
        · exact Or.inr (by simp [h])
        · rcases ih h with h' | h'
          · exact Or.inl h'
          · exact Or.inr (List.mem_cons_of_mem _ h')

theorem mapGet_mem {β : Type} {m : List (String × β)} {k : String} {v : β}
    (h : mapGet m k = some v) : (k, v) ∈ m := by
  induction m with
  | nil => simp [mapGet] at h
  | cons q rest ih =>
      obtain ⟨k', v'⟩ := q
      by_cases hk : k' = k
      · subst hk
        simp [mapGet] at h
        subst h
        exact List.mem_cons_self _ _
      · simp only [mapGet, if_neg hk] at h
        exact List.mem_cons_of_mem _ (ih h)

theorem dropTrail_getLast? (l : List Char) :
    (dropTrailWhileSlash l).getLast? ≠ some '/' := by
  induction l with
  | nil => simp [dropTrailWhileSlash]
  | cons c cs ih =>
      cases hrec : dropTrailWhileSlash cs with
      | nil =>
          by_cases hc : c = '/'
          · simp [dropTrailWhileSlash, hrec, hc]
          · simp [dropTrailWhileSlash, hrec, hc]
      | cons d ds =>
          rw [hrec] at ih
          simp only [dropTrailWhileSlash, hrec, List.getLast?_cons_cons]
          exact ih

theorem dropTrail_ne_nil {l : List Char} (h : ∃ x ∈ l, x ≠ '/') :
    dropTrailWhileSlash l ≠ [] := by
  induction l with
  | nil => simp at h
  | cons c cs ih =>
      rcases h with ⟨x, hx, hxs⟩
      rcases List.mem_cons.mp hx with rfl | hmem
      · cases hrec : dropTrailWhileSlash cs with
        | nil => simp [dropTrailWhileSlash, hrec, hxs]
        | cons d ds => simp [dropTrailWhileSlash, hrec]
      · have : dropTrailWhileSlash cs ≠ [] := ih ⟨x, hmem, hxs⟩
        cases hrec : dropTrailWhileSlash cs with
        | nil => exact absurd hrec this
        | cons d ds => simp [dropTrailWhileSlash, hrec]

theorem dropTrail_head {l : List Char} (h : ∃ x ∈ l, x ≠ '/') :
    (dropTrailWhileSlash l).head? = l.head? := by
  induction l with
  | nil => simp at h
  | cons c cs ih =>
      cases hrec : dropTrailWhileSlash cs with
      | nil =>
          have hc : c ≠ '/' := by
            rcases h with ⟨x, hx, hxs⟩
            rcases List.mem_cons.mp hx with rfl | hmem
            · exact hxs
            · exact absurd hrec (dropTrail_ne_nil ⟨x, hmem, hxs⟩)
          simp [dropTrailWhileSlash, hrec, hc]
      | cons d ds => simp [dropTrailWhileSlash, hrec]

theorem dropTrail_all_slash {l : List Char} (h : ∀ x ∈ l, x = '/') :
    dropTrailWhileSlash l = [] := by
  induction l with
  | nil => rfl
  | cons c cs ih =>
      have hrec : dropTrailWhileSlash cs = []
        := ih (fun x hx => h x (List.mem_cons_of_mem _ hx))
      simp [dropTrailWhileSlash, hrec, h c (List.mem_cons_self _ _)]

theorem endsWithSlash_strip (s : String) :
    endsWithSlash (stripTrailingSlashes s) = false := by
  have := dropTrail_getLast? s.data
  simp [endsWithSlash, stripTrailingSlashes]
  exact this

theorem natTruthy_false_iff (o : Option Nat) :
    natTruthy o = false ↔ o = none ∨ o = some 0 := by
  cases o with
  | none => simp [natTruthy]
  | some n => simp [natTruthy]

theorem strTruthy_false_iff (o : Option String) :
    strTruthy o = false ↔ o = none ∨ o = some "" := by
  cases o with
  | none => simp [strTruthy]
  | some s => simp [strTruthy]

theorem jsStartsWithSlash_iff (s : String) :
    jsStartsWithSlash s = true ↔ s.data.head? = some '/' := by
  unfold jsStartsWithSlash
  cases h : s.data with
  | nil => simp
  | cons c cs => simp [beq_iff_eq]

theorem natTruthy_true_iff (o : Option Nat) :
    natTruthy o = true ↔ ∃ n, o = some n ∧ n ≠ 0 := by
  cases o with
  | none => simp [natTruthy]
  | some n => simp [natTruthy]

/-- Normalization yields a string starting with `'/'` whenever the input
contains any non-slash character. -/
theorem normalize_starts (t : String) (hex : ∃ c ∈ t.data, c ≠ '/') :
    jsStartsWithSlash (stripTrailingSlashes (ensureLeadingSlash t)) = true := by
  have hu : (ensureLeadingSlash t).data.head? = some '/' ∧
      ∃ c ∈ (ensureLeadingSlash t).data, c ≠ '/' := by
    unfold ensureLeadingSlash
    by_cases hsl : jsStartsWithSlash t = true
    · rw [if_pos hsl]
      exact ⟨(jsStartsWithSlash_iff t).mp hsl, hex⟩
    · rw [if_neg hsl]
      constructor
      · rfl
      · obtain ⟨c, hc, hcs⟩ := hex
        exact ⟨c, List.mem_cons_of_mem _ hc, hcs⟩
  rw [jsStartsWithSlash_iff]
  show (dropTrailWhileSlash (ensureLeadingSlash t).data).head? = some '/'
  rw [dropTrail_head hu.2]
  exact hu.1

/-- Normalization yields the empty string when the input consists only of
slashes (or is empty). -/
theorem normalize_all_slash (t : String) (hall : ∀ c ∈ t.data, c = '/') :
    stripTrailingSlashes (ensureLeadingSlash t) = "" := by
  unfold stripTrailingSlashes ensureLeadingSlash
  by_cases hsl : jsStartsWithSlash t = true
  · rw [if_pos hsl]
    rw [dropTrail_all_slash hall]
  · rw [if_neg hsl]
    have hnil : t.data = [] := by
      cases h : t.data with
      | nil => rfl
      | cons c cs =>
          have hc : c = '/' := hall c (by simp [h])
          have : jsStartsWithSlash t = true := by
            rw [jsStartsWithSlash_iff, h, hc]
            rfl
          exact absurd this hsl
    show (⟨dropTrailWhileSlash ('/' :: t.data)⟩ : String) = ""
    rw [hnil]
    decide

theorem buildEntriesAux_all_skip {es : List EndpointEntryConfig}
    (h : ∀ e ∈ es, jsTrim e.id = "") :
    ∀ m, buildEntriesAux m es = m := by
  induction es with
  | nil => intro m; rfl
  | cons e es' ih =>
      intro m
      have he : jsTrim e.id = "" := h e (List.mem_cons_self _ _)
      have hrest : ∀ e' ∈ es', jsTrim e'.id = "" :=
        fun e' h' => h e' (List.mem_cons_of_mem _ h')
      simp only [buildEntriesAux]
      rw [if_pos he]
      exact ih hrest m

/-- Every pair stored by the token-resolution loop has a non-empty token
value and a non-empty token name. -/
theorem resolveTokensAux_wf :
    ∀ (ts : List EndpointTokenConfig) (tm : List (String × String)),
      (∀ q ∈ tm, q.1 ≠ "" ∧ q.2 ≠ "") →
      ∀ p ∈ resolveTokensAux tm ts, p.1 ≠ "" ∧ p.2 ≠ "" := by
  intro ts
  induction ts with
  | nil => intro tm htm p hp; exact htm p hp
  | cons t ts' ih =>
      intro tm htm p hp
      simp only [resolveTokensAux] at hp
      by_cases hv : jsTrim t.value ≠ ""
      · rw [if_pos hv] at hp
        refine ih _ ?_ p hp
        intro q hq
        rcases mem_mapSet hq with rfl | hq'
        · refine ⟨hv, ?_⟩
          cases hn : t.name with
          | none => simp
          | some n =>
              by_cases hnt : jsTrim n = ""
              · simp [hnt]
              · simp [hnt]
        · exact htm q hq'
      · rw [if_neg hv] at hp
        exact ih _ htm p hp

theorem resolveTokens_wf (tokens : List EndpointTokenConfig) :
    ∀ p ∈ resolveTokens tokens, p.1 ≠ "" ∧ p.2 ≠ "" :=
  resolveTokensAux_wf tokens [] (by simp)

/-- Every entry stored by the entry-resolution loop has a well-formed
token map. -/
theorem buildEntriesAux_wf :
    ∀ (es : List EndpointEntryConfig) (m : List (String × EndpointEntryResolved)),
      (∀ q ∈ m, ∀ p ∈ q.2.tokenMap, p.1 ≠ "" ∧ p.2 ≠ "") →
      ∀ q ∈ buildEntriesAux m es, ∀ p ∈ q.2.tokenMap, p.1 ≠ "" ∧ p.2 ≠ "" := by
  intro es
  induction es with
  | nil => intro m hm q hq; exact hm q hq
  | cons e es' ih =>
      intro m hm q hq
      simp only [buildEntriesAux] at hq
      by_cases he : jsTrim e.id = ""
      · rw [if_pos he] at hq
        exact ih _ hm q hq
      · rw [if_neg he] at hq
        refine ih _ ?_ q hq
        intro q' hq'
        rcases mem_mapSet hq' with rfl | hq''
        · intro p hp
          exact resolveTokens_wf _ p hp
        · exact hm q' hq''

/-- One admission check never grows a bucket beyond `maxRequests`
(provided it was within the bound before). -/
theorem rate_step_len {id : String} {max : Nat} {w now : Int}
    {m : RateBuckets} (h : (bucketTs m id).length ≤ max) :
    (bucketTs (isRateLimited id max w now m).2 id).length ≤ max := by
  simp only [bucketTs] at h
  by_cases hc : max ≤
      (((mapGet m id).getD []).filter (fun t => now - w < t)).length
  · simp only [isRateLimited, bucketTs, if_pos hc, mapGet_mapSet_self,
      Option.getD_some]
    calc (((mapGet m id).getD []).filter (fun t => now - w < t)).length
        ≤ ((mapGet m id).getD []).length := List.length_filter_le _ _
      _ ≤ max := h
  · simp only [isRateLimited, bucketTs, if_neg hc, mapGet_mapSet_self,
      Option.getD_some, List.length_append, List.length_cons,
      List.length_nil]
    omega

theorem runRate_len {id : String} {max : Nat} {w : Int} :
    ∀ (nows : List Int) (m : RateBuckets),
      (bucketTs m id).length ≤ max →
      (bucketTs (runRate id max w m nows) id).length ≤ max := by
  intro nows
  induction nows with
  | nil => intro m h; exact h
  | cons n ns ih =>
      intro m h
      exact ih _ (rate_step_len h)

/-- Shape of every accepted resolution: the snapshot is exactly the
normalized base path, resolved rate limit and resolved entry map of the
raw config. -/
theorem resolve_some_eq {cfg : OpenClawConfig} {raw : EndpointsConfig}
    {snap : EndpointsConfigResolved}
    (hraw : cfg.endpoints = some raw)
    (h : resolveEndpointsConfig cfg = some snap) :
    snap = { basePath := normalizeBasePath raw.basePath
             rateLimit := resolveRateLimit raw.rateLimit
             entries := buildEntries (raw.entries.getD []) } := by
  obtain ⟨eps⟩ := cfg
  have heps : eps = some raw := hraw
  subst heps
  simp only [resolveEndpointsConfig] at h
  by_cases he : raw.enabled = some true
  · rw [if_pos he] at h
    by_cases hent : buildEntries (raw.entries.getD []) = []
    · simp [hent] at h
    · rw [if_neg hent] at h
      exact (Option.some.inj h).symm
  · rw [if_neg he] at h
    simp at h

-- ---------------------------------------------------------------------------
-- Sample data shared by the concrete witnesses
-- ---------------------------------------------------------------------------

/-- A raw endpoint entry with id `"a"` and all optional fields absent. -/
def rawEntryA : EndpointEntryConfig :=
  { id := "a", instructions := none, mode := none, tokens := none,
    model := none, thinking := none, timeoutSeconds := none }

/-- A resolved sync endpoint with no tokens. -/
def entrySupport : EndpointEntryResolved :=
  { id := "support", instructions := none, mode := none, model := none,
    thinking := none, timeoutSeconds := none, tokenMap := [] }

/-- A resolved async endpoint with no tokens. -/
def entryAsync : EndpointEntryResolved :=
  { id := "a", instructions := none, mode := some .async, model := none,
    thinking := none, timeoutSeconds := none, tokenMap := [] }

/-- A resolved endpoint with two configured tokens. -/
def entryAuth : EndpointEntryResolved :=
  { id := "auth", instructions := none, mode := none, model := none,
    thinking := none, timeoutSeconds := none,
    tokenMap := [("a", "alpha"), ("b", "beta")] }

/-- A resolved snapshot holding the three sample endpoints. -/
def snapshotEx : EndpointsConfigResolved :=
  { basePath := "/endpoints", rateLimit := none,
    entries := [("support", entrySupport), ("a", entryAsync),
                ("auth", entryAuth)] }

-- ---------------------------------------------------------------------------
-- Claims
-- ---------------------------------------------------------------------------

/-- **C3**: each rate-limiter admission check first prunes the stored
timestamp sequence to those strictly greater than `now - windowMs`; it
rejects exactly when the pruned count is at least `maxRequests`, in which
case the bucket keeps just the pruned timestamps (nothing recorded);
otherwise `now` is appended and the request is admitted.  Concretely,
with `maxRequests = 3`, `windowSeconds = 1` (1000 ms): three calls at
t=0 admit, a fourth at t=500 ms rejects, a fifth at t=1100 ms admits. -/
theorem claim3_rate_admission :
    (∀ (id : String) (maxRequests : Nat) (windowMs now : Int)
        (m : RateBuckets),
      ((isRateLimited id maxRequests windowMs now m).1 = true ↔
        maxRequests ≤
          ((bucketTs m id).filter (fun t => now - windowMs < t)).length) ∧
      bucketTs (isRateLimited id maxRequests windowMs now m).2 id =
        (if maxRequests ≤
            ((bucketTs m id).filter (fun t => now - windowMs < t)).length
         then (bucketTs m id).filter (fun t => now - windowMs < t)
         else ((bucketTs m id).filter (fun t => now - windowMs < t)) ++ [now])) ∧
    rateResults "e" 3 1000 [] [0, 0, 0, 500, 1100] =
      [false, false, false, true, false] := by
  constructor
  · intro id maxRequests windowMs now m
    constructor
    · by_cases hc : maxRequests ≤
          (((mapGet m id).getD []).filter (fun t => now - windowMs < t)).length
      · simp [isRateLimited, bucketTs, hc]
      · simp [isRateLimited, bucketTs, hc]
    · by_cases hc : maxRequests ≤
          (((mapGet m id).getD []).filter (fun t => now - windowMs < t)).length
      · simp [isRateLimited, bucketTs, hc, mapGet_mapSet_self]
      · simp [isRateLimited, bucketTs, hc, mapGet_mapSet_self]
  · decide

/-- **C4**: per-bucket invariants of the sliding-window limiter: starting
from the empty bucket map, after any sequence of checks followed by one
more check at time `now` (window `w > 0`), every retained timestamp is
strictly newer than `now - w`, the retained count never exceeds `max`,
and an admitted check retains exactly the pruned timestamps plus `now`
(one more than the pruned count). -/
theorem claim4_rate_bucket_invariants (id : String) (max : Nat) (w : Int)
    (nows : List Int) (now : Int) (hw : 0 < w) :
    (∀ t ∈ bucketTs (isRateLimited id max w now (runRate id max w [] nows)).2 id,
        now - w < t) ∧
    (bucketTs (isRateLimited id max w now (runRate id max w [] nows)).2 id).length
        ≤ max ∧
    ((isRateLimited id max w now (runRate id max w [] nows)).1 = false →
      (bucketTs (isRateLimited id max w now (runRate id max w [] nows)).2 id).length =
        ((bucketTs (runRate id max w [] nows) id).filter
            (fun t => now - w < t)).length + 1) := by
  have hlen : (bucketTs (runRate id max w [] nows) id).length ≤ max :=
    runRate_len nows [] (by simp [bucketTs, mapGet])
  set m := runRate id max w [] nows with hm
  refine ⟨?_, rate_step_len hlen, ?_⟩
  · intro t ht
    by_cases hc : max ≤
        (((mapGet m id).getD []).filter (fun t => now - w < t)).length
    · simp only [isRateLimited, bucketTs, if_pos hc, mapGet_mapSet_self,
        Option.getD_some] at ht
      simpa using (List.mem_filter.mp ht).2
    · simp only [isRateLimited, bucketTs, if_neg hc, mapGet_mapSet_self,
        Option.getD_some] at ht
      rcases List.mem_append.mp ht with h1 | h1
      · simpa using (List.mem_filter.mp h1).2
      · have ht' : t = now := by simpa using h1
        subst ht'
        exact sub_lt_self _ hw
  · intro hrej
    by_cases hc : max ≤
        (((mapGet m id).getD []).filter (fun t => now - w < t)).length
    · simp [isRateLimited, hc] at hrej
    · simp [isRateLimited, bucketTs, if_neg hc, mapGet_mapSet_self]

/-- Witness for C4 at `id = "e"`, `max = 3`, `w = 1000`, prior checks at
0, 0, 0, 500 and a final check at 1100. -/
theorem claim4_witness :
    (0 : Int) < 1000 ∧
    ((∀ t ∈ bucketTs
          (isRateLimited "e" 3 1000 1100 (runRate "e" 3 1000 [] [0, 0, 0, 500])).2 "e",
        (1100 : Int) - 1000 < t) ∧
      (bucketTs
          (isRateLimited "e" 3 1000 1100 (runRate "e" 3 1000 [] [0, 0, 0, 500])).2 "e").length
          ≤ 3 ∧
      ((isRateLimited "e" 3 1000 1100 (runRate "e" 3 1000 [] [0, 0, 0, 500])).1 = false →
        (bucketTs
            (isRateLimited "e" 3 1000 1100 (runRate "e" 3 1000 [] [0, 0, 0, 500])).2 "e").length =
          ((bucketTs (runRate "e" 3 1000 [] [0, 0, 0, 500]) "e").filter
              (fun t => (1100 : Int) - 1000 < t)).length + 1)) :=
  ⟨by decide, claim4_rate_bucket_invariants "e" 3 1000 [0, 0, 0, 500] 1100 (by decide)⟩

/-- **C8**: the resolver returns null when the feature is not explicitly
enabled (`endpoints` section absent or `enabled ≠ true`) or when no entry
has a non-empty trimmed id; and with a null snapshot the handler declines
every request (`false`, nothing written, buckets untouched). -/
theorem claim8_disabled_null_and_decline :
    (∀ cfg : OpenClawConfig, cfg.endpoints = none →
        resolveEndpointsConfig cfg = none) ∧
    (∀ (cfg : OpenClawConfig) (raw : EndpointsConfig),
        cfg.endpoints = some raw → raw.enabled ≠ some true →
        resolveEndpointsConfig cfg = none) ∧
    (∀ (cfg : OpenClawConfig) (raw : EndpointsConfig),
        cfg.endpoints = some raw →
        (∀ e ∈ raw.entries.getD [], jsTrim e.id = "") →
        resolveEndpointsConfig cfg = none) ∧
    (∀ (req : HookRequest) (body : BodyReadResult) (buckets : RateBuckets)
        (now : Int) (freshRunId : String) (dr : Except String DispatchReply)
        (okDel : Except String Unit),
        handleEndpointsRequest none req body buckets now freshRunId dr okDel =
          (.notHandled, buckets)) := by
  refine ⟨?_, ?_, ?_, ?_⟩
  · intro cfg h
    simp [resolveEndpointsConfig, h]
  · intro cfg raw hraw hen
    simp only [resolveEndpointsConfig, hraw]
    rw [if_neg hen]
  · intro cfg raw hraw hskip
    simp only [resolveEndpointsConfig, hraw]
    by_cases hen : raw.enabled = some true
    · rw [if_pos hen]
      have hb : buildEntries (raw.entries.getD []) = [] :=
        buildEntriesAux_all_skip hskip []
      simp [hb]
    · rw [if_neg hen]
  · intro req body buckets now freshRunId dr okDel
    rfl

/-- A config whose `enabled` flag is `false`. -/
def cfgDisabled : OpenClawConfig :=
  ⟨some { enabled := some false, basePath := none, rateLimit := none,
          entries := some [rawEntryA] }⟩

/-- An enabled config whose only entry id trims to the empty string. -/
def cfgBlankIds : OpenClawConfig :=
  ⟨some { enabled := some true, basePath := none, rateLimit := none,
          entries := some [{ id := "   ", instructions := none, mode := none,
                             tokens := none, model := none, thinking := none,
                             timeoutSeconds := none }] }⟩

/-- Witness for C8 on a disabled config, a config with only blank ids,
and a concrete declined request. -/
theorem claim8_witness :
    resolveEndpointsConfig cfgDisabled = none ∧
    resolveEndpointsConfig cfgBlankIds = none ∧
    handleEndpointsRequest none ⟨"POST", "/endpoints/a", none⟩ (.err "boom")
      [] 0 "r" (.error "e") (.ok ()) = (.notHandled, []) :=
  ⟨claim8_disabled_null_and_decline.2.1 cfgDisabled _ rfl (by decide),
   claim8_disabled_null_and_decline.2.2.1 cfgBlankIds _ rfl (by decide),
   claim8_disabled_null_and_decline.2.2.2 ⟨"POST", "/endpoints/a", none⟩
     (.err "boom") [] 0 "r" (.error "e") (.ok ())⟩

/-- **C6**: a request matching the base path whose method is not POST gets
the 405 response with an `Allow: POST` header; the result is the same for
every token, body, dispatch outcome and bucket state (auth, rate limiting
and body validation are not consulted) and the rate buckets are
unchanged. -/
theorem claim6_non_post_405 (c : EndpointsConfigResolved)
    (method pathname : String) (token : Option String)
    (body : BodyReadResult) (buckets : RateBuckets) (now : Int)
    (freshRunId : String) (dr : Except String DispatchReply)
    (okDel : Except String Unit)
    (hpath : pathMatches c.basePath pathname = true)
    (hmethod : method ≠ "POST") :
    handleEndpointsRequest (some c) ⟨method, pathname, token⟩ body buckets
      now freshRunId dr okDel = (.handled resp405 [], buckets) := by
  simp only [handleEndpointsRequest, hpath, if_true]
  rw [if_pos hmethod]

/-- Witness for C6: a GET request to a matching path with a bogus token
and an unreadable body still yields exactly the 405 response. -/
theorem claim6_witness :
    pathMatches snapshotEx.basePath "/endpoints/support" = true ∧
    "GET" ≠ "POST" ∧
    handleEndpointsRequest (some snapshotEx)
      ⟨"GET", "/endpoints/support", some "tok"⟩ (.err "broken") [] 5 "r"
      (.error "e") (.ok ()) = (.handled resp405 [], []) :=
  ⟨by decide, by decide,
   claim6_non_post_405 snapshotEx "GET" "/endpoints/support" (some "tok")
     (.err "broken") [] 5 "r" (.error "e") (.ok ()) (by decide) (by decide)⟩

/-- The raw config that refutes C2: enabled, one valid entry, and a
`basePath` that is present but empty. -/
def cfgEmptyBase : OpenClawConfig :=
  ⟨some { enabled := some true, basePath := some "", rateLimit := none,
          entries := some [rawEntryA] }⟩

/-- The snapshot the resolver actually produces for `cfgEmptyBase`. -/
def snapEmptyBase : EndpointsConfigResolved :=
  { basePath := "", rateLimit := none,
    entries := [("a", { id := "a", instructions := none, mode := none,
                        model := none, thinking := none,
                        timeoutSeconds := none, tokenMap := [] })] }

/-- **C2 counterexample**: the resolver accepts a raw config whose
`basePath` is the empty string (so empty after trimming) and yields a
snapshot with `basePath = ""`, which neither starts with `"/"` nor equals
`"/endpoints"`: the `??` default only fires when the raw base path is
unset, not when it is empty. -/
theorem claim2_counterexample :
    resolveEndpointsConfig cfgEmptyBase = some snapEmptyBase ∧
    jsStartsWithSlash snapEmptyBase.basePath = false ∧
    snapEmptyBase.basePath ≠ "/endpoints" :=
  ⟨by decide, by decide, by decide⟩

/-- **C2 (amended)**: for every raw configuration the resolver accepts,
the snapshot's basePath never ends with `"/"`; it equals `"/endpoints"`
whenever the raw basePath is unset; it starts with `"/"` whenever the
trimmed raw basePath contains some non-slash character; and when the
trimmed raw basePath is empty or consists only of slashes the snapshot's
basePath is the empty string. -/
theorem claim2_basepath_normalization (cfg : OpenClawConfig)
    (raw : EndpointsConfig) (snap : EndpointsConfigResolved)
    (hraw : cfg.endpoints = some raw)
    (h : resolveEndpointsConfig cfg = some snap) :
    endsWithSlash snap.basePath = false ∧
    (raw.basePath = none → snap.basePath = "/endpoints") ∧
    (∀ s, raw.basePath = some s → (∃ c ∈ (jsTrim s).data, c ≠ '/') →
        jsStartsWithSlash snap.basePath = true) ∧
    (∀ s, raw.basePath = some s → (∀ c ∈ (jsTrim s).data, c = '/') →
        snap.basePath = "") := by
  have hs := resolve_some_eq hraw h
  subst hs
  refine ⟨endsWithSlash_strip _, ?_, ?_, ?_⟩
  · intro h0
    show normalizeBasePath raw.basePath = "/endpoints"
    rw [h0]
    decide
  · intro s hs0 hex
    show jsStartsWithSlash (normalizeBasePath raw.basePath) = true
    rw [hs0]
    unfold normalizeBasePath
    simp only [Option.getD_some]
    exact normalize_starts _ hex
  · intro s hs0 hall
    show normalizeBasePath raw.basePath = ""
    rw [hs0]
    unfold normalizeBasePath
    simp only [Option.getD_some]
    exact normalize_all_slash _ hall

/-- Raw config used to instantiate the amended C2. -/
def rawBaseEx : EndpointsConfig :=
  { enabled := some true, basePath := some "  /bb// ", rateLimit := none,
    entries := some [rawEntryA] }

/-- The corresponding config object. -/
def cfgBaseEx : OpenClawConfig := ⟨some rawBaseEx⟩

/-- The snapshot the resolver produces for `cfgBaseEx`. -/
def snapBaseEx : EndpointsConfigResolved :=
  { basePath := "/bb", rateLimit := none,
    entries := [("a", { id := "a", instructions := none, mode := none,
                        model := none, thinking := none,
                        timeoutSeconds := none, tokenMap := [] })] }

/-- Witness for the amended C2 at a raw base path `"  /bb// "`. -/
theorem claim2_witness :
    cfgBaseEx.endpoints = some rawBaseEx ∧
    resolveEndpointsConfig cfgBaseEx = some snapBaseEx ∧
    (endsWithSlash snapBaseEx.basePath = false ∧
      (rawBaseEx.basePath = none → snapBaseEx.basePath = "/endpoints") ∧
      (∀ s, rawBaseEx.basePath = some s →
        (∃ c ∈ (jsTrim s).data, c ≠ '/') →
        jsStartsWithSlash snapBaseEx.basePath = true) ∧
      (∀ s, rawBaseEx.basePath = some s →
        (∀ c ∈ (jsTrim s).data, c = '/') →
        snapBaseEx.basePath = "")) :=
  ⟨rfl, by decide,
   claim2_basepath_normalization cfgBaseEx rawBaseEx snapBaseEx rfl (by decide)⟩

/-- **C9**: the snapshot's rateLimit is null iff the raw rate-limit
object is absent or both of its fields are absent-or-zero; when at least
one field is set to a non-zero value, the snapshot keeps a rate limit in
which each absent field defaults to 60 (`?? 60`). -/
theorem claim9_rate_limit_resolution (cfg : OpenClawConfig)
    (raw : EndpointsConfig) (snap : EndpointsConfigResolved)
    (hraw : cfg.endpoints = some raw)
    (h : resolveEndpointsConfig cfg = some snap) :
    (snap.rateLimit = none ↔
      raw.rateLimit = none ∨
        ∃ r, raw.rateLimit = some r ∧
          (r.maxRequests = none ∨ r.maxRequests = some 0) ∧
          (r.windowSeconds = none ∨ r.windowSeconds = some 0)) ∧
    (∀ r, raw.rateLimit = some r →
        ((∃ n, r.maxRequests = some n ∧ n ≠ 0) ∨
          (∃ n, r.windowSeconds = some n ∧ n ≠ 0)) →
        snap.rateLimit = some { maxRequests := r.maxRequests.getD 60,
                                windowSeconds := r.windowSeconds.getD 60 }) := by
  have hs := resolve_some_eq hraw h
  subst hs
  constructor
  · show resolveRateLimit raw.rateLimit = none ↔ _
    cases hr : raw.rateLimit with
    | none => simp [resolveRateLimit]
    | some r =>
        simp only [resolveRateLimit]
        by_cases hb : (natTruthy r.maxRequests || natTruthy r.windowSeconds) = true
        · rw [if_pos hb]
          constructor
          · intro hno; exact absurd hno (by simp)
          · rintro (h0 | ⟨r', hr', hmax, hwin⟩)
            · exact absurd h0 (by simp)
            · have hrr : r' = r := by
                have := hr'.symm
                injection this
              subst hrr
              have hmax' : natTruthy r'.maxRequests = false :=
                (natTruthy_false_iff _).mpr hmax
              have hwin' : natTruthy r'.windowSeconds = false :=
                (natTruthy_false_iff _).mpr hwin
              rw [hmax', hwin'] at hb
              simp at hb
        · rw [if_neg hb]
          simp only [true_iff]
          right
          refine ⟨r, rfl, ?_, ?_⟩
          · have : natTruthy r.maxRequests = false := by
              cases hmx : natTruthy r.maxRequests
              · rfl
              · exact absurd (by simp [hmx]) hb
            exact (natTruthy_false_iff _).mp this
          · have : natTruthy r.windowSeconds = false := by
              cases hws : natTruthy r.windowSeconds
              · rfl
              · exact absurd (by simp [hws]) hb
            exact (natTruthy_false_iff _).mp this
  · intro r hr htr
    show resolveRateLimit raw.rateLimit = _
    rw [hr]
    simp only [resolveRateLimit]
    have hb : (natTruthy r.maxRequests || natTruthy r.windowSeconds) = true := by
      rcases htr with ⟨n, hn, hn0⟩ | ⟨n, hn, hn0⟩
      · have : natTruthy r.maxRequests = true :=
          (natTruthy_true_iff _).mpr ⟨n, hn, hn0⟩
        simp [this]
      · have : natTruthy r.windowSeconds = true :=
          (natTruthy_true_iff _).mpr ⟨n, hn, hn0⟩
        simp [this]
    rw [if_pos hb]

/-- Raw config used to instantiate C9: only `windowSeconds` is set. -/
def rawRateEx : EndpointsConfig :=
  { enabled := some true, basePath := none,
    rateLimit := some { maxRequests := none, windowSeconds := some 5 },
    entries := some [rawEntryA] }

/-- The corresponding config object. -/
def cfgRateEx : OpenClawConfig := ⟨some rawRateEx⟩

/-- The snapshot the resolver produces for `cfgRateEx`. -/
def snapRateEx : EndpointsConfigResolved :=
  { basePath := "/endpoints",
    rateLimit := some { maxRequests := 60, windowSeconds := 5 },
    entries := [("a", { id := "a", instructions := none, mode := none,
                        model := none, thinking := none,
                        timeoutSeconds := none, tokenMap := [] })] }

/-- Witness for C9: with only `windowSeconds = 5` set, the snapshot keeps
a rate limit and `maxRequests` defaults to 60. -/
theorem claim9_witness :
    cfgRateEx.endpoints = some rawRateEx ∧
    resolveEndpointsConfig cfgRateEx = some snapRateEx ∧
    ((snapRateEx.rateLimit = none ↔
        rawRateEx.rateLimit = none ∨
          ∃ r, rawRateEx.rateLimit = some r ∧
            (r.maxRequests = none ∨ r.maxRequests = some 0) ∧
            (r.windowSeconds = none ∨ r.windowSeconds = some 0)) ∧
      (∀ r, rawRateEx.rateLimit = some r →
          ((∃ n, r.maxRequests = some n ∧ n ≠ 0) ∨
            (∃ n, r.windowSeconds = some n ∧ n ≠ 0)) →
          snapRateEx.rateLimit = some { maxRequests := r.maxRequests.getD 60,
                                        windowSeconds := r.windowSeconds.getD 60 })) :=
  ⟨rfl, by decide,
   claim9_rate_limit_resolution cfgRateEx rawRateEx snapRateEx rfl (by decide)⟩

theorem authCheck_none {tm : List (String × String)} (htm : tm ≠ []) :
    authCheck tm none = .error () := by
  unfold authCheck
  rw [if_neg htm]

theorem authCheck_some {tm : List (String × String)} (t : String)
    (htm : tm ≠ []) :
    authCheck tm (some t) =
      (if t = "" then .error ()
       else
        match mapGet tm t with
        | none => .error ()
        | some name => if name = "" then .error () else .ok (some name)) := by
  unfold authCheck
  rw [if_neg htm]

/-- **C5**: the auth step: with an empty token map every request passes
with no token label; with a non-empty token map a request passes exactly
when it presents a token byte-equal to one configured token value, in
which case the associated label is resolved, and otherwise the handler
responds 401 with body `{"ok": false, "error": "Unauthorized"}`.  The
final conjunct shows every token map produced by the resolver has
non-empty token values and labels, so the characterization covers every
resolved endpoint. -/
theorem claim5_auth_gate :
    (∀ token : Option String, authCheck [] token = .ok none) ∧
    (∀ (tm : List (String × String)) (token : Option String) (name : String),
        tm ≠ [] → (∀ p ∈ tm, p.1 ≠ "" ∧ p.2 ≠ "") →
        (authCheck tm token = .ok (some name) ↔
          ∃ t, token = some t ∧ mapGet tm t = some name)) ∧
    (∀ (tm : List (String × String)) (token : Option String),
        tm ≠ [] →
        authCheck tm token = .error () ∨
          ∃ name, authCheck tm token = .ok (some name)) ∧
    (∀ (c : EndpointsConfigResolved) (req : HookRequest)
        (body : BodyReadResult) (buckets : RateBuckets) (now : Int)
        (freshRunId : String) (dr : Except String DispatchReply)
        (okDel : Except String Unit) (entry : EndpointEntryResolved),
        pathMatches c.basePath req.pathname = true →
        req.method = "POST" →
        subPathOf c.basePath req.pathname ≠ "" →
        mapGet c.entries (subPathOf c.basePath req.pathname) = some entry →
        authCheck entry.tokenMap req.token = .error () →
        handleEndpointsRequest (some c) req body buckets now freshRunId dr okDel =
          (.handled (sendJson 401 (jsonErr "Unauthorized")) [], buckets)) ∧
    (∀ (cfg : OpenClawConfig) (snap : EndpointsConfigResolved) (k : String)
        (entry : EndpointEntryResolved) (p : String × String),
        resolveEndpointsConfig cfg = some snap →
        mapGet snap.entries k = some entry →
        p ∈ entry.tokenMap → p.1 ≠ "" ∧ p.2 ≠ "") := by
  refine ⟨fun token => rfl, ?_, ?_, ?_, ?_⟩
  · intro tm token name htm hwf
    cases token with
    | none => simp [authCheck_none htm]
    | some t =>
        rw [authCheck_some t htm]
        by_cases ht : t = ""
        · subst ht
          rw [if_pos rfl]
          constructor
          · intro h; exact absurd h (by simp)
          · rintro ⟨t', ht', hget⟩
            have htt : t' = "" := by injection ht'.symm
            subst htt
            exact absurd (hwf _ (mapGet_mem hget)).1 (by simp)
        · rw [if_neg ht]
          cases hg : mapGet tm t with
          | none =>
              simp only [Option.some.injEq]
              constructor
              · intro h; exact absurd h (by simp)
              · rintro ⟨t', ht', hget⟩
                have htt : t' = t := ht'.symm
                subst htt
                rw [hg] at hget
                exact absurd hget (by simp)
          | some nm =>
              have hnm : nm ≠ "" := (hwf _ (mapGet_mem hg)).2
              dsimp only
              rw [if_neg hnm]
              constructor
              · intro h
                have : nm = name := by
                  have h' := h
                  injection h' with h''
                  injection h''
                subst this
                exact ⟨t, rfl, hg⟩
              · rintro ⟨t', ht', hget⟩
                have htt : t' = t := by injection ht'.symm
                subst htt
                rw [hg] at hget
                have hnn : nm = name := by injection hget
                subst hnn
                rfl
  · intro tm token htm
    cases token with
    | none => exact Or.inl (authCheck_none htm)
    | some t =>
        rw [authCheck_some t htm]
        by_cases ht : t = ""
        · rw [if_pos ht]
          exact Or.inl rfl
        · rw [if_neg ht]
          cases hg : mapGet tm t with
          | none => exact Or.inl rfl
          | some nm =>
              dsimp only
              by_cases hnm : nm = ""
              · rw [if_pos hnm]
                exact Or.inl rfl
              · rw [if_neg hnm]
                exact Or.inr ⟨nm, rfl⟩
  · intro c req body buckets now freshRunId dr okDel entry hpath hmethod hsub
      hentry hauth
    simp [handleEndpointsRequest, hpath, hmethod, hsub, hentry, hauth]
  · intro cfg snap k entry p hres hget hp
    obtain ⟨eps⟩ := cfg
    cases eps with
    | none => simp [resolveEndpointsConfig] at hres
    | some raw =>
        have hs := resolve_some_eq rfl hres
        subst hs
        have hmem := mapGet_mem hget
        exact buildEntriesAux_wf _ [] (by simp) (k, entry) hmem p hp

/-- Witness for C5: the two-token endpoint accepts token `"a"` with label
`"alpha"` (characterization instantiated), and a wrong token on that
endpoint draws the 401 response from the handler. -/
theorem claim5_witness :
    entryAuth.tokenMap ≠ [] ∧
    (∀ p ∈ entryAuth.tokenMap, p.1 ≠ "" ∧ p.2 ≠ "") ∧
    (authCheck entryAuth.tokenMap (some "a") = .ok (some "alpha") ↔
      ∃ t, (some "a" : Option String) = some t ∧
        mapGet entryAuth.tokenMap t = some "alpha") ∧
    handleEndpointsRequest (some snapshotEx)
      ⟨"POST", "/endpoints/auth", some "zzz"⟩
      (.ok (.obj [("message", .str "hi")])) [] 0 "r" (.error "e") (.ok ()) =
      (.handled (sendJson 401 (jsonErr "Unauthorized")) [], []) :=
  ⟨by decide, by decide,
   claim5_auth_gate.2.1 entryAuth.tokenMap (some "a") "alpha" (by decide)
     (by decide),
   claim5_auth_gate.2.2.2.1 snapshotEx ⟨"POST", "/endpoints/auth", some "zzz"⟩
     (.ok (.obj [("message", .str "hi")])) [] 0 "r" (.error "e") (.ok ())
     entryAuth (by decide) rfl (by decide) (by decide) rfl⟩

/-- **C10**: after a successful body read, a JSON document whose top-level
value is a number, string, boolean or null is never rejected as a parse
error: it is replaced by the empty object; and every request whose
extracted message is empty — top level not a non-null object, `message`
absent, not a string, or empty after trimming, which are exactly the
cases with `messageOf (jsPayload v) = ""` — draws the 400 response with
body `{"ok": false, "error": "message is required"}`. -/
theorem claim10_message_required :
    (jsPayload .null = .obj []) ∧
    (∀ b, jsPayload (.bool b) = .obj []) ∧
    (∀ n, jsPayload (.num n) = .obj []) ∧
    (∀ s, jsPayload (.str s) = .obj []) ∧
    (∀ (c : EndpointsConfigResolved) (req : HookRequest) (v : Json)
        (buckets buckets' : RateBuckets) (now : Int) (freshRunId : String)
        (dr : Except String DispatchReply) (okDel : Except String Unit)
        (entry : EndpointEntryResolved) (tn : Option String),
        pathMatches c.basePath req.pathname = true →
        req.method = "POST" →
        subPathOf c.basePath req.pathname ≠ "" →
        mapGet c.entries (subPathOf c.basePath req.pathname) = some entry →
        authCheck entry.tokenMap req.token = .ok tn →
        rateLimitStep c.rateLimit entry.id buckets now = (none, buckets') →
        messageOf (jsPayload v) = "" →
        handleEndpointsRequest (some c) req (.ok v) buckets now freshRunId dr okDel =
          (.handled (sendJson 400 (jsonErr "message is required")) [],
            buckets')) := by
  refine ⟨rfl, fun b => rfl, fun n => rfl, fun s => rfl, ?_⟩
  intro c req v buckets buckets' now freshRunId dr okDel entry tn hpath
    hmethod hsub hentry hauth hrl hmsg
  simp [handleEndpointsRequest, hpath, hmethod, hsub, hentry, hauth, hrl, hmsg]

/-- Witness for C10: a top-level JSON number is treated as the empty
object and the request is answered 400 "message is required". -/
theorem claim10_witness :
    jsPayload (.num 7) = .obj [] ∧
    messageOf (jsPayload (.num 7)) = "" ∧
    handleEndpointsRequest (some snapshotEx)
      ⟨"POST", "/endpoints/support", none⟩ (.ok (.num 7)) [] 0 "r"
      (.ok { runId := "d", reply := some "x" }) (.ok ()) =
      (.handled (sendJson 400 (jsonErr "message is required")) [], []) :=
  ⟨claim10_message_required.2.2.1 7, rfl,
   claim10_message_required.2.2.2.2 snapshotEx
     ⟨"POST", "/endpoints/support", none⟩ (.num 7) [] [] 0 "r"
     (.ok { runId := "d", reply := some "x" }) (.ok ()) entrySupport none
     (by decide) rfl (by decide) rfl rfl rfl rfl⟩

/-- **C7**: for every validated request the effective mode is the
endpoint's mode defaulting to sync; async with no effective callbackUrl
(absent, non-string, or empty after trimming — exactly
`strTruthy (callbackUrlOf ...) = false`) → 400 "... is async —
callbackUrl is required"; sync with a callbackUrl → 400 "... is sync —
callbackUrl is not supported"; and dispatch proceeds exactly when
callback presence matches the mode: async+callback gives the 202 accept,
sync+no-callback gives the dispatch outcome (200 on success, 500 on
failure). -/
theorem claim7_mode_callback_validation (c : EndpointsConfigResolved)
    (req : HookRequest) (v : Json) (buckets buckets' : RateBuckets)
    (now : Int) (freshRunId : String) (dr : Except String DispatchReply)
    (okDel : Except String Unit)
    (entry : EndpointEntryResolved) (tn : Option String)
    (hpath : pathMatches c.basePath req.pathname = true)
    (hmethod : req.method = "POST")
    (hsub : subPathOf c.basePath req.pathname ≠ "")
    (hentry : mapGet c.entries (subPathOf c.basePath req.pathname) = some entry)
    (hauth : authCheck entry.tokenMap req.token = .ok tn)
    (hrl : rateLimitStep c.rateLimit entry.id buckets now = (none, buckets'))
    (hmsg : messageOf (jsPayload v) ≠ "") :
    (entry.mode = none → entry.mode.getD .sync = .sync) ∧
    (entry.mode.getD .sync = .async →
      strTruthy (callbackUrlOf (jsPayload v)) = false →
      handleEndpointsRequest (some c) req (.ok v) buckets now freshRunId dr okDel =
        (.handled (sendJson 400 (jsonErr
            ("Endpoint \"" ++ entry.id ++
              "\" is async — callbackUrl is required"))) [], buckets')) ∧
    (entry.mode.getD .sync = .sync →
      strTruthy (callbackUrlOf (jsPayload v)) = true →
      handleEndpointsRequest (some c) req (.ok v) buckets now freshRunId dr okDel =
        (.handled (sendJson 400 (jsonErr
            ("Endpoint \"" ++ entry.id ++
              "\" is sync — callbackUrl is not supported"))) [], buckets')) ∧
    (entry.mode.getD .sync = .async →
      strTruthy (callbackUrlOf (jsPayload v)) = true →
      handleEndpointsRequest (some c) req (.ok v) buckets now freshRunId dr okDel =
        (.handled (sendJson 202 (.obj [("ok", .bool true),
            ("runId", .str freshRunId)]))
          (asyncCallbacks (callbackUrlOf (jsPayload v)) freshRunId dr
            okDel),
          buckets')) ∧
    (entry.mode.getD .sync = .sync →
      strTruthy (callbackUrlOf (jsPayload v)) = false →
      (∀ r, dr = .ok r →
        handleEndpointsRequest (some c) req (.ok v) buckets now freshRunId dr okDel =
          (.handled (sendJson 200 (.obj [("ok", .bool true),
              ("reply", .str (r.reply.getD ""))])) [], buckets')) ∧
      (∀ e, dr = .error e →
        handleEndpointsRequest (some c) req (.ok v) buckets now freshRunId dr okDel =
          (.handled (sendJson 500 (jsonErr e)) [], buckets'))) := by
  refine ⟨fun h => by simp [h], ?_, ?_, ?_, ?_⟩
  · intro hmode hcb
    simp [handleEndpointsRequest, hpath, hmethod, hsub, hentry, hauth, hrl,
      hmsg, hmode, hcb]
  · intro hmode hcb
    simp [handleEndpointsRequest, hpath, hmethod, hsub, hentry, hauth, hrl,
      hmsg, hmode, hcb]
  · intro hmode hcb
    simp [handleEndpointsRequest, hpath, hmethod, hsub, hentry, hauth, hrl,
      hmsg, hmode, hcb]
  · intro hmode hcb
    constructor
    · intro r hr
      subst hr
      simp [handleEndpointsRequest, hpath, hmethod, hsub, hentry, hauth, hrl,
        hmsg, hmode, hcb]
    · intro e he
      subst he
      simp [handleEndpointsRequest, hpath, hmethod, hsub, hentry, hauth, hrl,
        hmsg, hmode, hcb]

/-- The async-accept request body used by the C7 and C1 witnesses. -/
def vAsyncEx : Json :=
  .obj [("message", .str "hi"), ("callbackUrl", .str "http://cb")]

/-- The async request used by the C7 and C1 witnesses. -/
def reqAsyncEx : HookRequest := ⟨"POST", "/endpoints/a", none⟩

/-- Witness for C7: a sync endpoint given a callbackUrl draws the
"callbackUrl is not supported" 400 response. -/
theorem claim7_witness :
    entrySupport.mode.getD .sync = .sync ∧
    strTruthy (callbackUrlOf (jsPayload vAsyncEx)) = true ∧
    handleEndpointsRequest (some snapshotEx)
      ⟨"POST", "/endpoints/support", none⟩ (.ok vAsyncEx) [] 0 "r"
      (.error "e") (.ok ()) =
      (.handled (sendJson 400 (jsonErr
          ("Endpoint \"" ++ entrySupport.id ++
            "\" is sync — callbackUrl is not supported"))) [], []) :=
  ⟨rfl, rfl,
   (claim7_mode_callback_validation snapshotEx
      ⟨"POST", "/endpoints/support", none⟩ vAsyncEx [] [] 0 "r" (.error "e")
      (.ok ()) entrySupport none (by decide) rfl (by decide) rfl rfl rfl
      (by decide)).2.2.1 rfl rfl⟩

/-- **C1 counterexample**: an accepted async request (202 with fresh run
id) whose dispatch succeeds but whose success-callback delivery fails
draws TWO callback POST attempts: the awaited ok-POST rejects inside the
`try`, so the outer `catch` runs and posts `status: "error"` with the
delivery error — refuting "exactly one callback POST attempt is made". -/
theorem claim1_counterexample :
    handleEndpointsRequest (some snapshotEx) reqAsyncEx (.ok vAsyncEx) [] 0
        "r1" (.ok { runId := "d", reply := some "yo" })
        (.error "fetch failed") =
      (.handled (sendJson 202 (.obj [("ok", .bool true), ("runId", .str "r1")]))
        [⟨"http://cb", { runId := "r1", status := "ok", reply := some "yo",
                         error := none }⟩,
         ⟨"http://cb", { runId := "r1", status := "error", reply := none,
                         error := some "fetch failed" }⟩], []) ∧
    (asyncCallbacks (some "http://cb") "r1"
        (.ok { runId := "d", reply := some "yo" })
        (.error "fetch failed")).length ≠ 1 :=
  ⟨rfl, by decide⟩

/-- **C1 (amended)**: for every accepted async request (202 with the
fresh run id) the response term is independent of both the dispatch
outcome `dr` and the success-callback delivery outcome `okDel` (both
universally quantified), so no backend or delivery failure is ever
surfaced to the original caller; and once the dispatch call resolves, at
least one and at most two callback POST attempts are made, all to the
caller-supplied callbackUrl: exactly one (status "error") when dispatch
fails; exactly one (status "ok") when dispatch succeeds and its delivery
does not fail; and exactly two — the ok-POST followed by an error-POST
carrying the delivery error — when the ok-POST's delivery fails. -/
theorem claim1_async_callback_attempts (c : EndpointsConfigResolved)
    (req : HookRequest) (v : Json) (buckets buckets' : RateBuckets)
    (now : Int) (freshRunId : String) (dr : Except String DispatchReply)
    (okDel : Except String Unit)
    (entry : EndpointEntryResolved) (tn : Option String) (u : String)
    (hpath : pathMatches c.basePath req.pathname = true)
    (hmethod : req.method = "POST")
    (hsub : subPathOf c.basePath req.pathname ≠ "")
    (hentry : mapGet c.entries (subPathOf c.basePath req.pathname) = some entry)
    (hauth : authCheck entry.tokenMap req.token = .ok tn)
    (hrl : rateLimitStep c.rateLimit entry.id buckets now = (none, buckets'))
    (hmsg : messageOf (jsPayload v) ≠ "")
    (hmode : entry.mode.getD .sync = .async)
    (hcb : callbackUrlOf (jsPayload v) = some u)
    (hu : u ≠ "") :
    handleEndpointsRequest (some c) req (.ok v) buckets now freshRunId dr
        okDel =
      (.handled (sendJson 202 (.obj [("ok", .bool true),
          ("runId", .str freshRunId)]))
        (asyncCallbacks (some u) freshRunId dr okDel), buckets') ∧
    (∀ a ∈ asyncCallbacks (some u) freshRunId dr okDel, a.url = u) ∧
    1 ≤ (asyncCallbacks (some u) freshRunId dr okDel).length ∧
    (asyncCallbacks (some u) freshRunId dr okDel).length ≤ 2 ∧
    (∀ e, dr = .error e →
      asyncCallbacks (some u) freshRunId dr okDel =
        [⟨u, { runId := freshRunId, status := "error", reply := none,
               error := some e }⟩]) ∧
    (∀ r, dr = .ok r → okDel = .ok () →
      asyncCallbacks (some u) freshRunId dr okDel =
        [⟨u, { runId := freshRunId, status := "ok",
               reply := some (r.reply.getD ""), error := none }⟩]) ∧
    (∀ r derr, dr = .ok r → okDel = .error derr →
      asyncCallbacks (some u) freshRunId dr okDel =
        [⟨u, { runId := freshRunId, status := "ok",
               reply := some (r.reply.getD ""), error := none }⟩,
         ⟨u, { runId := freshRunId, status := "error", reply := none,
               error := some derr }⟩]) := by
  have hst : strTruthy (some u) = true := by
    simp [strTruthy, hu]
  refine ⟨?_, ?_, ?_, ?_, ?_, ?_, ?_⟩
  · simp [handleEndpointsRequest, hpath, hmethod, hsub, hentry, hauth, hrl,
      hmsg, hmode, hst, hcb]
  · intro a ha
    cases dr with
    | ok r =>
        cases okDel with
        | ok x =>
            simp [asyncCallbacks, hu] at ha
            simp [ha]
        | error derr =>
            simp [asyncCallbacks, hu] at ha
            rcases ha with ha | ha <;> simp [ha]
    | error e =>
        simp [asyncCallbacks, hu] at ha
        simp [ha]
  · cases dr with
    | ok r => cases okDel <;> simp [asyncCallbacks, hu]
    | error e => simp [asyncCallbacks, hu]
  · cases dr with
    | ok r => cases okDel <;> simp [asyncCallbacks, hu]
    | error e => simp [asyncCallbacks, hu]
  · intro e he
    subst he
    simp [asyncCallbacks, hu]
  · intro r hr hok
    subst hr
    subst hok
    simp [asyncCallbacks, hu]
  · intro r derr hr hd
    subst hr
    subst hd
    simp [asyncCallbacks, hu]

/-- Witness for the amended C1 at the async endpoint, once with a failed
delivery of the success callback (two attempts) and once with a failed
dispatch (one attempt). -/
theorem claim1_witness :
    callbackUrlOf (jsPayload vAsyncEx) = some "http://cb" ∧
    (handleEndpointsRequest (some snapshotEx) reqAsyncEx (.ok vAsyncEx) [] 0
        "r1" (.ok { runId := "d", reply := some "yo" })
        (.error "fetch failed") =
      (.handled (sendJson 202 (.obj [("ok", .bool true), ("runId", .str "r1")]))
        (asyncCallbacks (some "http://cb") "r1"
          (.ok { runId := "d", reply := some "yo" })
          (.error "fetch failed")), []) ∧
      (∀ a ∈ asyncCallbacks (some "http://cb") "r1"
          (.ok { runId := "d", reply := some "yo" }) (.error "fetch failed"),
        a.url = "http://cb") ∧
      1 ≤ (asyncCallbacks (some "http://cb") "r1"
          (.ok { runId := "d", reply := some "yo" })
          (.error "fetch failed")).length ∧
      (asyncCallbacks (some "http://cb") "r1"
          (.ok { runId := "d", reply := some "yo" })
          (.error "fetch failed")).length ≤ 2 ∧
      (∀ e, (.ok { runId := "d", reply := some "yo" } :
              Except String DispatchReply) = .error e →
        asyncCallbacks (some "http://cb") "r1"
            (.ok { runId := "d", reply := some "yo" }) (.error "fetch failed") =
          [⟨"http://cb", { runId := "r1", status := "error", reply := none,
                           error := some e }⟩]) ∧
      (∀ r, (.ok { runId := "d", reply := some "yo" } :
              Except String DispatchReply) = .ok r →
        (.error "fetch failed" : Except String Unit) = .ok () →
        asyncCallbacks (some "http://cb") "r1"
            (.ok { runId := "d", reply := some "yo" }) (.error "fetch failed") =
          [⟨"http://cb", { runId := "r1", status := "ok",
                           reply := some (r.reply.getD ""), error := none }⟩]) ∧
      (∀ r derr, (.ok { runId := "d", reply := some "yo" } :
              Except String DispatchReply) = .ok r →
        (.error "fetch failed" : Except String Unit) = .error derr →
        asyncCallbacks (some "http://cb") "r1"
            (.ok { runId := "d", reply := some "yo" }) (.error "fetch failed") =
          [⟨"http://cb", { runId := "r1", status := "ok",
                           reply := some (r.reply.getD ""), error := none }⟩,
           ⟨"http://cb", { runId := "r1", status := "error", reply := none,
                           error := some derr }⟩])) ∧
    (handleEndpointsRequest (some snapshotEx) reqAsyncEx (.ok vAsyncEx) [] 0
        "r1" (.error "boom") (.ok ()) =
      (.handled (sendJson 202 (.obj [("ok", .bool true), ("runId", .str "r1")]))
        (asyncCallbacks (some "http://cb") "r1" (.error "boom") (.ok ())), []) ∧
      (∀ a ∈ asyncCallbacks (some "http://cb") "r1" (.error "boom") (.ok ()),
        a.url = "http://cb") ∧
      1 ≤ (asyncCallbacks (some "http://cb") "r1" (.error "boom")
          (.ok ())).length ∧
      (asyncCallbacks (some "http://cb") "r1" (.error "boom")
          (.ok ())).length ≤ 2 ∧
      (∀ e, (.error "boom" : Except String DispatchReply) = .error e →
        asyncCallbacks (some "http://cb") "r1" (.error "boom") (.ok ()) =
          [⟨"http://cb", { runId := "r1", status := "error", reply := none,
                           error := some e }⟩]) ∧
      (∀ r, (.error "boom" : Except String DispatchReply) = .ok r →
        (.ok () : Except String Unit) = .ok () →
        asyncCallbacks (some "http://cb") "r1" (.error "boom") (.ok ()) =
          [⟨"http://cb", { runId := "r1", status := "ok",
                           reply := some (r.reply.getD ""), error := none }⟩]) ∧
      (∀ r derr, (.error "boom" : Except String DispatchReply) = .ok r →
        (.ok () : Except String Unit) = .error derr →
        asyncCallbacks (some "http://cb") "r1" (.error "boom") (.ok ()) =
          [⟨"http://cb", { runId := "r1", status := "ok",
                           reply := some (r.reply.getD ""), error := none }⟩,
           ⟨"http://cb", { runId := "r1", status := "error", reply := none,
                           error := some derr }⟩])) :=
  ⟨rfl,
   claim1_async_callback_attempts snapshotEx reqAsyncEx vAsyncEx [] [] 0 "r1"
     (.ok { runId := "d", reply := some "yo" }) (.error "fetch failed")
     entryAsync none "http://cb" (by decide) rfl (by decide) rfl rfl rfl
     (by decide) rfl rfl (by decide),
   claim1_async_callback_attempts snapshotEx reqAsyncEx vAsyncEx [] [] 0 "r1"
     (.error "boom") (.ok ()) entryAsync none "http://cb" (by decide) rfl
     (by decide) rfl rfl rfl (by decide) rfl rfl (by decide)⟩

end OpenClaw
